import Mathlib

/-!
Verification development for a small Express.js HTTP service
(`src/app.js`, `src/tracing.js`): an in-memory user store with
CRUD-lite endpoints, a metrics/tracing middleware, and synthetic
slow/error endpoints.  The JavaScript handlers are embedded as pure
Lean functions; the middleware's response-finish callback is embedded
as a function producing the list of telemetry events it emits, in
order.
-/

/-- A user record as stored in the in-memory `users` array of `app.js`:
`{ id, name, email, role }`. Ids are modelled as integers. -/
structure User where
  id : Int
  name : String
  email : String
  role : String
deriving Repr, DecidableEq

/-- The seed data of `app.js` (lines 89-94): the four initial users. -/
def users : List User :=
  [ ⟨1, "Alice Johnson", "alice@example.com", "admin"⟩,
    ⟨2, "Bob Smith", "bob@example.com", "user"⟩,
    ⟨3, "Charlie Brown", "charlie@example.com", "user"⟩,
    ⟨4, "Diana Prince", "diana@example.com", "moderator"⟩ ]

/-- Fold a list of decimal digit characters into a natural number,
most significant first (the accumulation `parseInt` performs). -/
def digitsToNat (ds : List Char) : Nat :=
  ds.foldl (fun a c => a * 10 + (c.toNat - 48)) 0

/-- The longest leading run of decimal digits, parsed; `none` when the
list does not start with a digit (JS `NaN`). -/
def leadDigits (cs : List Char) : Option Nat :=
  let ds := cs.takeWhile Char.isDigit
  if ds.isEmpty then none else some (digitsToNat ds)

/-- JavaScript `parseInt(s)` on decimal input, as used on the `:id`
route parameter: skip leading whitespace, accept one optional sign,
then parse the longest leading run of decimal digits, ignoring any
trailing characters; `none` models the `NaN` result when no digit is
found.  (The `0x` hexadecimal form of `parseInt` is not modelled:
route ids are decimal.) -/
def parseIntJS (s : String) : Option Int :=
  match s.data.dropWhile Char.isWhitespace with
  | '-' :: rest => (leadDigits rest).map (fun n => -(n : Int))
  | '+' :: rest => (leadDigits rest).map (fun n => (n : Int))
  | rest => (leadDigits rest).map (fun n => (n : Int))

/-- Response of the `GET /api/users/:id` handler: either status 200
with body `{user, timestamp}` or status 404 with body `{error}`. -/
inductive UserByIdResp where
  | ok (user : User) (timestamp : String)
  | notFound (error : String)
deriving Repr, DecidableEq

/-- HTTP status code of a `GET /api/users/:id` response. -/
def UserByIdResp.status : UserByIdResp → Nat
  | .ok _ _ => 200
  | .notFound _ => 404

/-- The `GET /api/users/:id` handler (`app.js` lines 210-245):
`parseInt` the `:id` parameter, `find` the first user with that id
(a `NaN` id matches nothing), answer 404 `{error: "User not found"}`
when the lookup fails and 200 `{user, timestamp}` otherwise.  The
store is returned unchanged: the handler only reads it. -/
def getUserById (store : List User) (idParam : String) (now : String) :
    List User × UserByIdResp :=
  match parseIntJS idParam with
  | none => (store, .notFound "User not found")
  | some userId =>
    match store.find? (fun u => u.id == userId) with
    | none => (store, .notFound "User not found")
    | some u => (store, .ok u now)

/-- JavaScript truthiness of a request-body string field: `none`
models an absent (`undefined`) field, and the empty string is the
falsy string.  (Other JS falsy values collapse onto these two.) -/
def truthy : Option String → Bool
  | none => false
  | some s => s ≠ ""

/-- The JSON body of a `POST /api/users` request, destructured by the
handler as `const { name, email, role = 'user' } = req.body`; `none`
means the field is absent. -/
structure CreateBody where
  name : Option String
  email : Option String
  role : Option String
deriving Repr, DecidableEq

/-- `Math.max(...l)` over a list of integers: `none` models the
`-Infinity` result of `Math.max()` when the spread list is empty, a
value outside the integer domain of ids. -/
def jsMaxIds : List Int → Option Int
  | [] => none
  | x :: xs => some (xs.foldl max x)

/-- Response of the `POST /api/users` handler: either status 201 with
body `{user, timestamp}` or status 400 with body `{error}`. -/
inductive CreateUserResp where
  | created (user : User) (timestamp : String)
  | badRequest (error : String)
deriving Repr, DecidableEq

/-- HTTP status code of a `POST /api/users` response. -/
def CreateUserResp.status : CreateUserResp → Nat
  | .created _ _ => 201
  | .badRequest _ => 400

/-- The `POST /api/users` handler (`app.js` lines 247-289): if `name`
or `email` is missing or falsy, answer 400 `{error}` leaving the store
unchanged; otherwise build the new user with
`id = Math.max(...users.map(u => u.id)) + 1`, `role` defaulting to
`"user"` when absent, push it, and answer 201 `{user, timestamp}`.
The result is `none` exactly when the store is empty and the success
path is taken: there `Math.max()` yields `-Infinity`, outside the
integer id domain, so the generated id is undefined. -/
def postUser (store : List User) (body : CreateBody) (now : String) :
    Option (List User × CreateUserResp) :=
  if !truthy body.name || !truthy body.email then
    some (store, .badRequest "Name and email are required")
  else
    match jsMaxIds (store.map User.id) with
    | none => none
    | some m =>
      let newUser : User :=
        ⟨m + 1, body.name.getD "", body.email.getD "", body.role.getD "user"⟩
      some (store ++ [newUser], .created newUser now)

/-- The parts of an Express request the middleware reads: `req.method`,
`req.url`, `req.path`, `req.route` (`none` when no route matched,
otherwise its `path` template), `req.get('User-Agent')` (`none` when
the header is absent) and `req.ip`. -/
structure Request where
  method : String
  url : String
  path : String
  routePath : Option String
  userAgent : Option String
  ip : String
deriving Repr, DecidableEq

/-- The Prometheus label set of the two custom metrics:
`{method, route, status_code}`. -/
structure Labels where
  method : String
  route : String
  status_code : Nat
deriving Repr, DecidableEq

/-- The label set the middleware builds (`app.js` lines 48-52):
`route` is `req.route.path` when Express matched a route, else the raw
`req.path`. -/
def requestLabels (req : Request) (statusCode : Nat) : Labels :=
  { method := req.method,
    route := match req.routePath with
      | some r => r
      | none => req.path,
    status_code := statusCode }

/-- A telemetry action emitted by the middleware's `finish` callback,
in emission order: counter increment, histogram observation, span
attribute update, span error-status transition, info log record. -/
inductive Event where
  | counterInc (labels : Labels)
  | histObserve (labels : Labels) (duration : ℚ)
  | spanSetAttributes (method url : String) (statusCode : Nat)
      (userAgent : String) (duration : ℚ)
  | spanSetError (message : String)
  | logInfo (method url : String) (statusCode : Nat) (duration : ℚ)
      (userAgent : Option String) (ip : String)
deriving Repr, DecidableEq

/-- Whether an event is the counter increment. -/
def Event.isCounterInc : Event → Bool
  | .counterInc _ => true
  | _ => false

/-- Whether an event is the histogram observation. -/
def Event.isHistObserve : Event → Bool
  | .histObserve _ _ => true
  | _ => false

/-- Whether an event is a span mutation (attributes or status). -/
def Event.isSpanEvent : Event → Bool
  | .spanSetAttributes _ _ _ _ _ => true
  | .spanSetError _ => true
  | _ => false

/-- Whether an event is a span status transition. -/
def Event.isSpanSetError : Event → Bool
  | .spanSetError _ => true
  | _ => false

/-- Whether an event is the info log record. -/
def Event.isLogInfo : Event → Bool
  | .logInfo _ _ _ _ _ _ => true
  | _ => false

/-- The middleware's `res.on('finish')` callback (`app.js` lines
46-80), as the list of telemetry events it emits in order: compute the
duration in fractional seconds, build the label set, increment the
counter and observe the histogram, then (when a span is active) set
the five HTTP span attributes and, for status codes at least 400, mark
the span status as error with message `HTTP {status}`, then emit one
info log record.  `hasSpan` models whether `trace.getActiveSpan()`
returned a span; `start` and `now` are `Date.now()` milliseconds. -/
def finishEvents (req : Request) (statusCode : Nat) (hasSpan : Bool)
    (start now : ℚ) : List Event :=
  let duration := (now - start) / 1000
  let labels := requestLabels req statusCode
  [Event.counterInc labels, Event.histObserve labels duration]
    ++ (if hasSpan then
          Event.spanSetAttributes req.method req.url statusCode
              (req.userAgent.getD "") duration
            :: (if 400 ≤ statusCode then
                  [Event.spanSetError ("HTTP " ++ toString statusCode)]
                else [])
        else [])
    ++ [Event.logInfo req.method req.url statusCode duration
          req.userAgent req.ip]

/-- Response of the `GET /api/slow` handler: status 200 with body
`{message, delay, timestamp}`; `waitMs` records the argument of the
awaited `setTimeout`, i.e. how long the handler sleeps before
responding. -/
structure SlowResp where
  status : Nat
  waitMs : Int
  message : String
  delay : Int
  timestamp : String
deriving Repr, DecidableEq

/-- The `GET /api/slow` handler (`app.js` lines 292-313): choose
`delay = Math.floor(Math.random() * 3000) + 1000` milliseconds, await
`setTimeout(resolve, delay)`, then answer 200 with body
`{message, delay, timestamp}`.  `r` is the `Math.random()` draw, a
number in `[0, 1)`. -/
def slowHandler (r : ℚ) (now : String) : SlowResp :=
  let delay : Int := ⌊r * 3000⌋ + 1000
  ⟨200, delay, "This was intentionally slow", delay, now⟩

/-- Response of the `GET /api/users` handler: status 200 with body
`{users, total, timestamp}`. -/
structure UsersListResp where
  users : List User
  total : Nat
  timestamp : String
deriving Repr, DecidableEq

/-- The `GET /api/users` handler (`app.js` lines 191-208): answer 200
with all users, `total = users.length` and a timestamp; the store is
returned unchanged (the handler only reads it). -/
def getUsers (store : List User) (now : String) :
    List User × UsersListResp :=
  (store, ⟨store, store.length, now⟩)

/-- The user stores reachable from the seed data by running the
endpoint handlers: read-only handlers pass the store through, and a
`POST /api/users` whose embedded result is defined replaces the store
by the one the handler returns. -/
inductive Reachable : List User → Prop where
  | seed : Reachable users
  | listStep (s : List User) (now : String) :
      Reachable s → Reachable (getUsers s now).1
  | lookupStep (s : List User) (p now : String) :
      Reachable s → Reachable (getUserById s p now).1
  | createStep (s : List User) (body : CreateBody) (now : String)
      (s' : List User) (r : CreateUserResp) :
      Reachable s → postUser s body now = some (s', r) → Reachable s'

/-- C1: for `GET /api/users/:id`, if some stored user's id equals the
path parameter parsed as an integer, the response is 200 with body
`{user, timestamp}` containing that exact user; if no user matches or
the id is not numeric, the response is 404 with body
`{error: "User not found"}`. -/
theorem getUserById_correct (store : List User) (idParam now : String) :
    (∀ n : Int, parseIntJS idParam = some n →
      ((∃ u ∈ store, u.id = n) →
        ∃ u, u ∈ store ∧ u.id = n ∧
          (getUserById store idParam now).2 = UserByIdResp.ok u now ∧
          ((getUserById store idParam now).2).status = 200) ∧
      ((∀ u ∈ store, u.id ≠ n) →
        (getUserById store idParam now).2 = UserByIdResp.notFound "User not found" ∧
        ((getUserById store idParam now).2).status = 404)) ∧
    (parseIntJS idParam = none →
      (getUserById store idParam now).2 = UserByIdResp.notFound "User not found" ∧
      ((getUserById store idParam now).2).status = 404) := by
  constructor
  · intro n hn
    constructor
    · intro ⟨u, hu, hid⟩
      have hsome : (store.find? (fun v => v.id == n)).isSome := by
        rw [List.find?_isSome]
        exact ⟨u, hu, by simp [hid]⟩
      obtain ⟨v, hv⟩ := Option.isSome_iff_exists.mp hsome
      refine ⟨v, List.mem_of_find?_eq_some hv, ?_, ?_, ?_⟩
      · simpa using List.find?_some hv
      · simp [getUserById, hn, hv]
      · simp [getUserById, hn, hv, UserByIdResp.status]
    · intro hnone
      have hfind : store.find? (fun v => v.id == n) = none := by
        rw [List.find?_eq_none]
        intro x hx
        simpa using hnone x hx
      constructor
      · simp [getUserById, hn, hfind]
      · simp [getUserById, hn, hfind, UserByIdResp.status]
  · intro hnan
    constructor
    · simp [getUserById, hnan]
    · simp [getUserById, hnan, UserByIdResp.status]

/-- Witness for C1: on the seed store, looking up id `"2"` answers 200
with Bob Smith, and looking up id `"abc"` (not numeric) answers 404. -/
theorem getUserById_correct_witness :
    (∃ u, u ∈ users ∧ u.id = 2 ∧
      (getUserById users "2" "t").2 = UserByIdResp.ok u "t" ∧
      ((getUserById users "2" "t").2).status = 200) ∧
    ((getUserById users "abc" "t").2 = UserByIdResp.notFound "User not found" ∧
      ((getUserById users "abc" "t").2).status = 404) := by
  constructor
  · exact ((getUserById_correct users "2" "t").1 2 (by decide)).1
      ⟨⟨2, "Bob Smith", "bob@example.com", "user"⟩, by simp [users], rfl⟩
  · exact (getUserById_correct users "abc" "t").2 (by decide)

/-- The seed of `List.foldl max` is a lower bound of the result. -/
theorem le_foldl_max (xs : List Int) (a : Int) : a ≤ xs.foldl max a := by
  induction xs generalizing a with
  | nil => exact le_refl a
  | cons x xs ih => exact le_trans (le_max_left a x) (ih (max a x))

/-- Every member of the list is bounded by `List.foldl max`. -/
theorem mem_le_foldl_max (xs : List Int) (a x : Int) (hx : x ∈ xs) :
    x ≤ xs.foldl max a := by
  induction xs generalizing a with
  | nil => cases hx
  | cons y ys ih =>
    simp only [List.foldl_cons]
    rcases List.mem_cons.mp hx with h | h
    · subst h
      exact le_trans (le_max_right a x) (le_foldl_max ys (max a x))
    · exact ih (max a y) h

/-- `List.foldl max a xs` is `a` or a member of `xs`. -/
theorem foldl_max_mem (xs : List Int) (a : Int) :
    xs.foldl max a = a ∨ xs.foldl max a ∈ xs := by
  induction xs generalizing a with
  | nil => exact Or.inl rfl
  | cons y ys ih =>
    simp only [List.foldl_cons]
    rcases ih (max a y) with h | h
    · rcases max_choice a y with hm | hm
      · exact Or.inl (h.trans hm)
      · exact Or.inr (by rw [h, hm]; exact List.mem_cons_self y ys)
    · exact Or.inr (List.mem_cons_of_mem y h)

/-- `jsMaxIds` bounds every member of the list. -/
theorem jsMaxIds_le (l : List Int) (m : Int) (h : jsMaxIds l = some m) :
    ∀ x ∈ l, x ≤ m := by
  cases l with
  | nil => simp [jsMaxIds] at h
  | cons y ys =>
    simp only [jsMaxIds, Option.some_inj] at h
    intro x hx
    subst h
    rcases List.mem_cons.mp hx with h | h
    · subst h
      exact le_foldl_max ys x
    · exact mem_le_foldl_max ys y x h

/-- `jsMaxIds` of a list, when defined, is a member of the list. -/
theorem jsMaxIds_mem (l : List Int) (m : Int) (h : jsMaxIds l = some m) :
    m ∈ l := by
  cases l with
  | nil => simp [jsMaxIds] at h
  | cons y ys =>
    simp only [jsMaxIds, Option.some_inj] at h
    subst h
    rcases foldl_max_mem ys y with h | h
    · rw [h]; exact List.mem_cons_self y ys
    · exact List.mem_cons_of_mem y h

/-- C2: a `POST /api/users` whose body has truthy `name` and `email`
(over a non-empty store, so the maximum id exists) answers 201 with
body `{user, timestamp}`, where the created user's role is the
supplied role or `"user"` when absent and its id is
`max(existing ids) + 1`, and appends exactly that user to the store. -/
theorem postUser_creates_correct (store : List User) (body : CreateBody)
    (now : String) (hn : truthy body.name = true)
    (he : truthy body.email = true) (hne : store ≠ []) :
    ∃ m : Int, jsMaxIds (store.map User.id) = some m ∧
      (∀ u ∈ store, u.id ≤ m) ∧ (∃ u ∈ store, u.id = m) ∧
      postUser store body now =
        some (store ++
            [⟨m + 1, body.name.getD "", body.email.getD "", body.role.getD "user"⟩],
          CreateUserResp.created
            ⟨m + 1, body.name.getD "", body.email.getD "", body.role.getD "user"⟩ now) ∧
      (CreateUserResp.created
          (⟨m + 1, body.name.getD "", body.email.getD "", body.role.getD "user"⟩ : User)
          now).status = 201 := by
  obtain ⟨y, ys, rfl⟩ := List.exists_cons_of_ne_nil hne
  refine ⟨(ys.map User.id).foldl max y.id, rfl, ?_, ?_, ?_, rfl⟩
  · intro u hu
    exact jsMaxIds_le ((y :: ys).map User.id) _ rfl u.id
      (List.mem_map_of_mem User.id hu)
  · have hmem := jsMaxIds_mem ((y :: ys).map User.id) _ rfl
    obtain ⟨u, hu, hid⟩ := List.mem_map.mp hmem
    exact ⟨u, hu, hid⟩
  · simp [postUser, hn, he, jsMaxIds]

/-- Witness for C2: posting `{name: "X", email: "y@z.com"}` (no role)
to the seed store creates user 5 with role `"user"`. -/
theorem postUser_creates_correct_witness :
    ∃ m : Int, jsMaxIds (users.map User.id) = some m ∧
      (∀ u ∈ users, u.id ≤ m) ∧ (∃ u ∈ users, u.id = m) ∧
      postUser users ⟨some "X", some "y@z.com", none⟩ "t" =
        some (users ++ [⟨m + 1, "X", "y@z.com", "user"⟩],
          CreateUserResp.created ⟨m + 1, "X", "y@z.com", "user"⟩ "t") ∧
      (CreateUserResp.created (⟨m + 1, "X", "y@z.com", "user"⟩ : User) "t").status = 201 :=
  postUser_creates_correct users ⟨some "X", some "y@z.com", none⟩ "t"
    (by decide) (by decide) (by decide)

/-- C3: a `POST /api/users` whose body has a missing or falsy `name`
or `email` answers 400 with body `{error: "Name and email are
required"}` and leaves the store unchanged. -/
theorem postUser_validation_400 (store : List User) (body : CreateBody)
    (now : String) (h : truthy body.name = false ∨ truthy body.email = false) :
    postUser store body now =
      some (store, CreateUserResp.badRequest "Name and email are required") ∧
    (CreateUserResp.badRequest "Name and email are required").status = 400 := by
  constructor
  · rcases h with h | h <;> simp [postUser, h]
  · rfl

/-- Witness for C3: posting `{email: "y@z.com"}` with no name to the
seed store answers 400 and the store is unchanged. -/
theorem postUser_validation_400_witness :
    postUser users ⟨none, some "y@z.com", none⟩ "t" =
      some (users, CreateUserResp.badRequest "Name and email are required") ∧
    (CreateUserResp.badRequest "Name and email are required").status = 400 :=
  postUser_validation_400 users ⟨none, some "y@z.com", none⟩ "t" (Or.inl rfl)

/-- C9: over an empty store, the id generation `max(existing ids) + 1`
of the create path is undefined: `Math.max()` over the empty spread
has no integer value (JS `-Infinity`), so a valid `POST /api/users`
against an empty store has no defined result in the model. -/
theorem postUser_empty_store_undefined :
    jsMaxIds (([] : List User).map User.id) = none ∧
    ∀ (body : CreateBody) (now : String), truthy body.name = true →
      truthy body.email = true → postUser [] body now = none := by
  refine ⟨rfl, ?_⟩
  intro body now hn he
  simp [postUser, hn, he, jsMaxIds]

/-- Witness for C9: a concrete valid body posted to the empty store
has no defined result. -/
theorem postUser_empty_store_undefined_witness :
    postUser [] ⟨some "X", some "y@z.com", none⟩ "t" = none :=
  postUser_empty_store_undefined.2 ⟨some "X", some "y@z.com", none⟩ "t" rfl rfl

/-- C4: each completed request's finish callback emits exactly one
metric sample (one counter increment then one histogram observation
under the same label set), at most one span-status transition, and
exactly one info log record, in the fixed order metrics, span
mutations, log. -/
theorem finishEvents_shape (req : Request) (statusCode : Nat)
    (hasSpan : Bool) (start now : ℚ) :
    ∃ spanEvs : List Event,
      finishEvents req statusCode hasSpan start now =
        [Event.counterInc (requestLabels req statusCode),
         Event.histObserve (requestLabels req statusCode) ((now - start) / 1000)]
          ++ spanEvs
          ++ [Event.logInfo req.method req.url statusCode ((now - start) / 1000)
                req.userAgent req.ip] ∧
      (∀ e ∈ spanEvs, e.isSpanEvent = true) ∧
      spanEvs.countP Event.isSpanSetError ≤ 1 ∧
      (finishEvents req statusCode hasSpan start now).countP Event.isCounterInc = 1 ∧
      (finishEvents req statusCode hasSpan start now).countP Event.isHistObserve = 1 ∧
      (finishEvents req statusCode hasSpan start now).countP Event.isLogInfo = 1 := by
  refine ⟨if hasSpan then
      Event.spanSetAttributes req.method req.url statusCode
          (req.userAgent.getD "") ((now - start) / 1000)
        :: (if 400 ≤ statusCode then
              [Event.spanSetError ("HTTP " ++ toString statusCode)]
            else [])
    else [], rfl, ?_, ?_, ?_, ?_, ?_⟩ <;>
    cases hasSpan <;> by_cases h4 : 400 ≤ statusCode <;>
    simp [finishEvents, h4, List.countP_cons, List.countP_append,
      Event.isSpanEvent, Event.isSpanSetError, Event.isCounterInc,
      Event.isHistObserve, Event.isLogInfo]

/-- C5: when a span is active, the finish callback sets the span
attributes http.method, http.url, http.status_code, http.user_agent
(the empty string when the header is absent) and
http.request_duration, and it marks the span status as error with
message `HTTP {status}` if and only if the status code is at least
400. -/
theorem finishEvents_span (req : Request) (statusCode : Nat)
    (start now : ℚ) :
    Event.spanSetAttributes req.method req.url statusCode
        (req.userAgent.getD "") ((now - start) / 1000)
      ∈ finishEvents req statusCode true start now ∧
    (Event.spanSetError ("HTTP " ++ toString statusCode)
        ∈ finishEvents req statusCode true start now ↔ 400 ≤ statusCode) ∧
    (∀ m : String, Event.spanSetError m ∈ finishEvents req statusCode true start now →
      m = "HTTP " ++ toString statusCode) := by
  refine ⟨?_, ?_, ?_⟩
  · simp [finishEvents]
  · by_cases h4 : 400 ≤ statusCode <;> simp [finishEvents, h4]
  · intro m hm
    by_cases h4 : 400 ≤ statusCode
    · simp [finishEvents, h4] at hm
      tauto
    · simp [finishEvents, h4] at hm

/-- Witness for C5 (and the absent-header case of the user-agent
attribute): a concrete 404 request with no User-Agent header gets the
span attributes with empty user agent and exactly the error status
`HTTP 404`. -/
theorem finishEvents_span_witness :
    Event.spanSetAttributes "GET" "/api/users/99" 404 "" ((5 - 3) / 1000)
      ∈ finishEvents ⟨"GET", "/api/users/99", "/api/users/99", some "/api/users/:id", none, "::1"⟩
          404 true 3 5 ∧
    (Event.spanSetError ("HTTP " ++ toString 404)
      ∈ finishEvents ⟨"GET", "/api/users/99", "/api/users/99", some "/api/users/:id", none, "::1"⟩
          404 true 3 5 ↔ 400 ≤ 404) :=
  ⟨(finishEvents_span ⟨"GET", "/api/users/99", "/api/users/99", some "/api/users/:id", none, "::1"⟩
      404 3 5).1,
   (finishEvents_span ⟨"GET", "/api/users/99", "/api/users/99", some "/api/users/:id", none, "::1"⟩
      404 3 5).2.1⟩

/-- C6: every metric event of the finish callback carries the label
set `{method, route, status_code}` where route is the matched route
template when the framework resolved one and the raw request path
otherwise. -/
theorem metricLabels_route (req : Request) (statusCode : Nat)
    (hasSpan : Bool) (start now : ℚ) :
    (∀ l : Labels, Event.counterInc l ∈ finishEvents req statusCode hasSpan start now →
      l = requestLabels req statusCode) ∧
    (∀ (l : Labels) (d : ℚ),
      Event.histObserve l d ∈ finishEvents req statusCode hasSpan start now →
      l = requestLabels req statusCode) ∧
    (requestLabels req statusCode).method = req.method ∧
    (requestLabels req statusCode).status_code = statusCode ∧
    (∀ rt : String, req.routePath = some rt →
      (requestLabels req statusCode).route = rt) ∧
    (req.routePath = none → (requestLabels req statusCode).route = req.path) := by
  refine ⟨?_, ?_, rfl, rfl, ?_, ?_⟩
  · intro l hl
    cases hasSpan <;> by_cases h4 : 400 ≤ statusCode <;>
      simp [finishEvents, h4] at hl <;> exact hl
  · intro l d hl
    cases hasSpan <;> by_cases h4 : 400 ≤ statusCode <;>
      simp [finishEvents, h4] at hl <;> exact hl.1
  · intro rt hrt
    simp [requestLabels, hrt]
  · intro hrt
    simp [requestLabels, hrt]

/-- Witness for C6: for a request with no matched route, the counter
label's route is the raw path; instantiated on a concrete unmatched
request. -/
theorem metricLabels_route_witness :
    (requestLabels ⟨"GET", "/nope", "/nope", none, none, "::1"⟩ 404).route = "/nope" :=
  (metricLabels_route ⟨"GET", "/nope", "/nope", none, none, "::1"⟩ 404 false 0 0).2.2.2.2.2 rfl

/-- C7: the `GET /api/slow` delay is an integer number of milliseconds
in `[1000, 4000)`, the handler waits exactly that long, and the
response's `delay` field equals the chosen delay (status 200). -/
theorem slowHandler_delay_range (r : ℚ) (now : String)
    (h0 : 0 ≤ r) (h1 : r < 1) :
    1000 ≤ (slowHandler r now).delay ∧ (slowHandler r now).delay < 4000 ∧
    (slowHandler r now).waitMs = (slowHandler r now).delay ∧
    (slowHandler r now).status = 200 := by
  refine ⟨?_, ?_, rfl, rfl⟩
  · have hfl : (0 : Int) ≤ ⌊r * 3000⌋ := by
      apply Int.le_floor.mpr
      push_cast
      exact mul_nonneg h0 (by norm_num)
    simp only [slowHandler]
    linarith
  · have hfl : ⌊r * 3000⌋ < (3000 : Int) := by
      apply Int.floor_lt.mpr
      push_cast
      linarith
    simp only [slowHandler]
    linarith

/-- Witness for C7: at the draw `r = 1/2` the delay is in range and
echoed in the body. -/
theorem slowHandler_delay_range_witness :
    1000 ≤ (slowHandler (1/2) "t").delay ∧
    (slowHandler (1/2) "t").delay < 4000 ∧
    (slowHandler (1/2) "t").waitMs = (slowHandler (1/2) "t").delay ∧
    (slowHandler (1/2) "t").status = 200 :=
  slowHandler_delay_range (1/2) "t" (by norm_num) (by norm_num)

/-- C8: repeated `GET /api/users` with no intervening `POST` returns
identical content except the timestamp: the handler leaves the store
unchanged, the second call's `users` and `total` equal the first's,
and `total` always equals the number of users returned. -/
theorem getUsers_idempotent (store : List User) (t1 t2 : String) :
    (getUsers store t1).1 = store ∧
    ((getUsers (getUsers store t1).1 t2).2).users = ((getUsers store t1).2).users ∧
    ((getUsers (getUsers store t1).1 t2).2).total = ((getUsers store t1).2).total ∧
    ((getUsers store t1).2).total = (((getUsers store t1).2).users).length :=
  ⟨rfl, rfl, rfl, rfl⟩

/-- The `GET /api/users/:id` handler never changes the store. -/
theorem getUserById_fst (s : List User) (p now : String) :
    (getUserById s p now).1 = s := by
  cases h : parseIntJS p with
  | none => simp [getUserById, h]
  | some n =>
    cases h2 : s.find? (fun u => u.id == n) with
    | none => simp [getUserById, h, h2]
    | some u => simp [getUserById, h, h2]

/-- A defined `POST /api/users` result either leaves the store
unchanged (validation failure) or appends exactly one user whose id is
strictly greater than every existing id. -/
theorem postUser_cases (s : List User) (body : CreateBody) (now : String)
    (s' : List User) (r : CreateUserResp)
    (h : postUser s body now = some (s', r)) :
    s' = s ∨ ∃ u : User, s' = s ++ [u] ∧ ∀ v ∈ s, v.id < u.id := by
  cases hn : truthy body.name with
  | false =>
    left
    simp [postUser, hn] at h
    exact h.1.symm
  | true =>
    cases he : truthy body.email with
    | false =>
      left
      simp [postUser, hn, he] at h
      exact h.1.symm
    | true =>
      cases s with
      | nil => simp [postUser, hn, he, jsMaxIds] at h
      | cons y ys =>
        right
        simp [postUser, hn, he, jsMaxIds] at h
        refine ⟨⟨(ys.map User.id).foldl max y.id + 1, body.name.getD "",
          body.email.getD "", body.role.getD "user"⟩, h.1.symm, ?_⟩
        intro v hv
        have hle := jsMaxIds_le ((y :: ys).map User.id)
          ((ys.map User.id).foldl max y.id) rfl v.id
          (List.mem_map_of_mem User.id hv)
        simp only [User.mk.injEq] at hle ⊢
        omega

/-- Every reachable store is non-empty and has pairwise-distinct ids. -/
theorem store_invariant_aux (s : List User) (h : Reachable s) :
    s ≠ [] ∧ (s.map User.id).Nodup := by
  induction h with
  | seed => exact ⟨by decide, by decide⟩
  | listStep s now hr ih => exact ih
  | lookupStep s p now hr ih => rw [getUserById_fst]; exact ih
  | createStep s body now s' r hr hpost ih =>
    rcases postUser_cases s body now s' r hpost with h1 | ⟨u, hs, hlt⟩
    · rw [h1]; exact ih
    · subst hs
      refine ⟨by simp, ?_⟩
      rw [List.map_append]
      refine List.Nodup.append ih.2 (by simp) ?_
      intro a ha hb
      simp only [List.map_cons, List.map_nil, List.mem_cons,
        List.not_mem_nil, or_false] at hb
      obtain ⟨v, hv, hva⟩ := List.mem_map.mp ha
      subst hb
      exact absurd hva (ne_of_lt (by simpa using hlt v hv))

/-- C10: every reachable state of the user store is non-empty with
pairwise-distinct user ids; the store starts at the four seeded users,
read-only endpoints leave it unchanged, and the only mutation appends
one user whose id is strictly greater than every existing id. -/
theorem reachable_store_invariant :
    (∀ s : List User, Reachable s → s ≠ [] ∧ (s.map User.id).Nodup) ∧
    (∀ (s : List User) (body : CreateBody) (now : String)
        (s' : List User) (r : CreateUserResp),
      postUser s body now = some (s', r) →
      s' = s ∨ ∃ u : User, s' = s ++ [u] ∧ ∀ v ∈ s, v.id < u.id) :=
  ⟨store_invariant_aux, postUser_cases⟩

/-- Witness for C10: the seeded store is reachable, non-empty, and its
ids `[1,2,3,4]` are pairwise distinct. -/
theorem reachable_store_invariant_witness :
    users ≠ [] ∧ (users.map User.id).Nodup :=
  reachable_store_invariant.1 users Reachable.seed
